import Mathlib

/-!
Shallow embedding of the ch4nn337 payment-channel library
(src/rust/ch4nn337-lib/src/lib.rs) in Lean 4.

Modelling conventions:
* `Address`, `U256`, byte strings and keys are modelled as `Nat` / `List Nat`.
  Machine-integer casts are explicit: `u128 as i128` and `i128 as u128` wrap
  modulo 2^128 (two's complement), matching the release-build semantics of the
  Rust casts in `get_balances`.
* The asynchronous network client (`Middleware`) is replaced by an explicit
  oracle `Net` whose fields carry the answers of the network calls the library
  makes; a `none` answer models a transport failure of that call.
* The external cryptography (k256 signing, signature recovery, the ERC-4337
  user-operation hash) and the key-to-address derivation of `ethers` are kept
  abstract as a `Crypto` record of pure functions; every channel operation is
  parameterised by it. `get_user_op_hash` covers every field of the operation
  except the signature, so the hash is taken of the op with its signature
  field cleared.
* The ABI codec of the generated contract bindings is embedded structurally:
  call data is carried as an already-decoded sum (`CallData`), with `other`
  standing for any byte string that decodes to none of the two recognised
  calls; `abi::encode` of the two signature `bytes` tokens in `sign_message`
  is implemented concretely (head/tail encoding).
* `serde_json` serialisation of a user operation is total and injective for
  this data type; the functions therefore return the operation itself where
  the Rust returns its JSON string.
* The `i128::try_from(...).unwrap()` in `request_transfer` can panic; the
  model returns `none` (of an outer `Option`) exactly where the Rust panics.
-/

namespace Ch4

/-- Two-party role, `enum Party { A, B }`. -/
inductive Party where
  | A
  | B
  deriving DecidableEq, Repr

/-- Decoded call payload of a user operation (`AAChannelCalls`).
`dispute` is `DisputeCall { value_transfer: i128 }`, `coopWithdraw` is
`CoopWithdrawCall { value_transfer: i128, withdraw_a: u128, withdraw_b: u128 }`,
and `other` stands for bytes that decode to neither (including undecodable
bytes and the contract's other call shapes, rejected alike by the library). -/
inductive CallData where
  | dispute (value_transfer : Int)
  | coopWithdraw (value_transfer : Int) (withdraw_a : Nat) (withdraw_b : Nat)
  | other (raw : List Nat)
  deriving DecidableEq, Repr

/-- ERC-4337 user operation (`ethers::types::userop::UserOp`), with the call
data carried in decoded form. The field `pre_verificaiton_gas` keeps the
library's spelling. -/
structure UserOp where
  sender : Nat
  nonce : Nat
  init_code : List Nat
  call_data : CallData
  call_gas_limit : Nat
  verification_gas_limit : Nat
  pre_verificaiton_gas : Nat
  max_fee_per_gas : Nat
  max_priority_fee_per_gas : Nat
  paymaster_and_data : List Nat
  signature : List Nat
  deriving DecidableEq, Repr

/-- `struct TransferMessage { userop, value_transfer: i128 }`. -/
structure TransferMessage where
  userop : UserOp
  value_transfer : Int
  deriving DecidableEq, Repr

/-- `struct WithdrawalMessage { userop, withdraw_us: u128, withdraw_them: u128 }`. -/
structure WithdrawalMessage where
  userop : UserOp
  withdraw_us : Nat
  withdraw_them : Nat
  deriving DecidableEq, Repr

/-- `enum Message { Transfer(..), Withdrawal(..) }`. -/
inductive Message where
  | Transfer (m : TransferMessage)
  | Withdrawal (m : WithdrawalMessage)
  deriving DecidableEq, Repr

/-- The error enum of the library. `middlewareError` and `contractError`
wrap the two transport-failure kinds; `serde` is unreachable in the model
(serialisation of these data types is total). -/
inductive Err where
  | middlewareError
  | contractError
  | insufficientBalance
  | alreadyWaiting
  | serde
  | illegalSender
  | illegalNonce
  | illegalInitcode
  | illegalConstant
  | illegalCalldata
  | illegalValueTransfer
  | illegalSignature
  deriving DecidableEq, Repr

/-- `struct Channel`, with the signing key's bytes modelled as a `Nat`. -/
structure Channel where
  chain_id : Nat
  entry_point : Nat
  factory : Nat
  address : Nat
  us : Party
  key : Nat
  counterparty : Nat
  salt : Nat
  messages : List Message
  pending_message : Option Message
  deriving DecidableEq, Repr

/-- Oracle for the network client: each field is the answer of one kind of
call the library makes; `none` is a transport failure of that call. -/
structure Net where
  code_nonempty : Option Bool
  native_balance : Option Nat
  chain_balance_a : Option Nat
  chain_balance_b : Option Nat
  send_ok : Bool
  deriving DecidableEq, Repr

/-- Abstract interface to the external cryptography of `ethers`/`k256`. -/
structure Crypto where
  addrOfKey : Nat → Nat
  signHash : Nat → Nat → List Nat
  userOpHash : UserOp → Nat → Nat → Nat
  recover : List Nat → Nat → Option Nat

def CALL_GAS_LIMIT_DISPUTE : Nat := 200000
def CALL_GAS_LIMIT_COOP : Nat := 200000
def VERIFICATION_GAS_LIMIT : Nat := 1500000
def PRE_VERIFICATION_GAS : Nat := 200000
def MAX_FEE_PER_GAS : Nat := 100000000
def PRIORITY_FEE : Nat := 100000000

/-- `u128 as i128` (two's complement reinterpretation). -/
def u128_as_i128 (n : Nat) : Int :=
  if n % 2 ^ 128 < 2 ^ 127 then ((n % 2 ^ 128 : Nat) : Int)
  else ((n % 2 ^ 128 : Nat) : Int) - 2 ^ 128

/-- `i128 as u128` (wrapping cast). -/
def i128_as_u128 (z : Int) : Nat := (z % 2 ^ 128).toNat

/-- Wrap an unbounded integer into the i128 range (release-build overflow
semantics of i128 arithmetic). -/
def wrap_i128 (z : Int) : Int := (z + 2 ^ 127) % 2 ^ 128 - 2 ^ 127

/-- `U256::low_u128`. -/
def low_u128 (n : Nat) : Nat := n % 2 ^ 128

/-- `i128::try_from` on a u128 value: fails above `i128::MAX`. -/
def i128_try_from_u128 (n : Nat) : Option Int :=
  if n ≤ 2 ^ 127 - 1 then some (n : Int) else none

/-- Big-endian byte string of fixed width `w` for `n` (used for the 32-byte
ABI words and the 20-byte address in `init_code`). -/
def beBytes (w : Nat) (n : Nat) : List Nat :=
  (List.range w).map (fun i => n / 256 ^ (w - 1 - i) % 256)

/-- One 32-byte ABI word. -/
def word (n : Nat) : List Nat := beBytes 32 (n % 2 ^ 256)

/-- ABI argument encoding of `CreateAccountCall { party_a, party_b, salt }`:
three static words. (The constant 4-byte function selector prefixed by the
bindings is the same for every caller and is dropped from the model.) -/
def encodeCreateAccount (party_a party_b salt : Nat) : List Nat :=
  word party_a ++ word party_b ++ word salt

/-- Pad a byte string to a 32-byte boundary with zero bytes. -/
def padBytes (l : List Nat) : List Nat :=
  l ++ List.replicate ((32 - l.length % 32) % 32) 0

/-- `abi::encode` of two dynamic `bytes` tokens: two head words holding the
tail offsets, then each tail as a length word followed by the padded data. -/
def abiEncode2Bytes (s1 s2 : List Nat) : List Nat :=
  let tail1 := word s1.length ++ padBytes s1
  let tail2 := word s2.length ++ padBytes s2
  word 64 ++ word (64 + tail1.length) ++ tail1 ++ tail2

/-- Nonce of the user operation wrapped by a message. -/
def messageNonce (m : Message) : Nat :=
  match m with
  | .Transfer t => t.userop.nonce
  | .Withdrawal w => w.userop.nonce

/-- User operation wrapped by a message. -/
def messageUserop (m : Message) : UserOp :=
  match m with
  | .Transfer t => t.userop
  | .Withdrawal w => w.userop

namespace Channel

/-- `Channel::our_address`: the address derived from the own signing key. -/
def our_address (crypto : Crypto) (c : Channel) : Nat :=
  crypto.addrOfKey c.key

/-- `Channel::parties`: the two party addresses ordered A-then-B. -/
def parties (crypto : Crypto) (c : Channel) : Nat × Nat :=
  let us := crypto.addrOfKey c.key
  match c.us with
  | .A => (us, c.counterparty)
  | .B => (c.counterparty, us)

/-- `Channel::init_code`: factory address bytes followed by the encoded
`CreateAccountCall`. -/
def init_code (crypto : Crypto) (c : Channel) : List Nat :=
  let p := c.parties crypto
  beBytes 20 (c.factory % 2 ^ 160) ++ encodeCreateAccount p.1 p.2 c.salt

/-- `Channel::get_value_transfer`: the `value_transfer` of the last committed
message when it is a Transfer, else 0. -/
def get_value_transfer (c : Channel) : Int :=
  match c.messages.getLast? with
  | none => 0
  | some (.Transfer t) => t.value_transfer
  | some (.Withdrawal _) => 0

/-- `Channel::is_deployed`: whether the code at the channel address is
non-empty; `none` is a failed `get_code` call. -/
def is_deployed (c : Channel) (net : Net) : Option Bool :=
  net.code_nonempty

/-- `Channel::get_balances`. Reads the two on-chain balances when deployed,
otherwise the native balance on A's side with B at zero, then applies the
outstanding-transfer adjustment exactly as the Rust does:
`balance_a = (balance_a as i128 - value_transfer) as u128` and
`balance_b += (balance_b as i128 - value_transfer) as u128`
(the `+=` wraps like u128 addition). -/
def get_balances (c : Channel) (net : Net) : Except Err (Nat × Nat) :=
  match c.is_deployed net with
  | none => .error .middlewareError
  | some deployed =>
    let raw : Except Err (Nat × Nat) :=
      if deployed then
        match net.chain_balance_a, net.chain_balance_b with
        | some a, some b => .ok (a, b)
        | _, _ => .error .contractError
      else
        match net.native_balance with
        | some a => .ok (low_u128 a, 0)
        | none => .error .middlewareError
    match raw with
    | .error e => .error e
    | .ok (a, b) =>
      let v := c.get_value_transfer
      let balance_a := i128_as_u128 (wrap_i128 (u128_as_i128 a - v))
      let balance_b := (b + i128_as_u128 (wrap_i128 (u128_as_i128 b - v))) % 2 ^ 128
      .ok (balance_a, balance_b)

/-- `Channel::get_sorted_balances`: own balance first. -/
def get_sorted_balances (c : Channel) (net : Net) : Except Err (Nat × Nat) :=
  match c.get_balances net with
  | .error e => .error e
  | .ok (a, b) => .ok (if c.us = Party.A then (a, b) else (b, a))

/-- `Channel::last_nonce`: nonce of the last committed message, 0 if none. -/
def last_nonce (c : Channel) : Nat :=
  match c.messages.getLast? with
  | none => 0
  | some m => messageNonce m

/-- `Channel::next_outgoing_nonce`: last committed nonce + 1, or 0 for an
empty history. (The U256 addition cannot overflow for any nonce a committed
operation can carry.) -/
def next_outgoing_nonce (c : Channel) : Nat :=
  if c.messages ≠ [] then c.last_nonce + 1 else 0

/-- `Channel::next_incoming_nonce`. -/
def next_incoming_nonce (c : Channel) : Nat :=
  c.next_outgoing_nonce

/-- The operation as hashed by `get_user_op_hash`: every field but the
signature. -/
def hashView (op : UserOp) : UserOp := { op with signature := [] }

/-- `Channel::sign`: sign the ERC-4337 hash of the operation with the own
key. -/
def sign (crypto : Crypto) (c : Channel) (op : UserOp) : List Nat :=
  crypto.signHash c.key (crypto.userOpHash (hashView op) c.entry_point c.chain_id)

/-- `Channel::open`. The random key pair and salt drawn from `OsRng` and the
factory's `get_address` answer are inputs of the model; a `none` answer is a
failed contract call. Returns the two instances with swapped roles. (`open`
is a Lean keyword, hence the name.) -/
def openChannel (crypto : Crypto) (chain_id entry_point factory : Nat)
    (key_a key_b salt : Nat) (factory_answer : Option Nat) :
    Except Err (Channel × Channel) :=
  match factory_answer with
  | none => .error .contractError
  | some address =>
    let address_a := crypto.addrOfKey key_a
    let address_b := crypto.addrOfKey key_b
    .ok
      ({ chain_id := chain_id, entry_point := entry_point, factory := factory,
         address := address, us := .A, key := key_a, counterparty := address_b,
         salt := salt, messages := [], pending_message := none },
       { chain_id := chain_id, entry_point := entry_point, factory := factory,
         address := address, us := .B, key := key_b, counterparty := address_a,
         salt := salt, messages := [], pending_message := none })

/-- `Channel::request_transfer` on `wei : NonZeroU128`. The outer `Option` is
`none` exactly where the Rust panics (`i128::try_from(wei.get()).unwrap()`);
otherwise the pair carries the (possibly mutated) channel and the result. -/
def request_transfer (crypto : Crypto) (c : Channel) (wei : Nat) (net : Net) :
    Option (Channel × Except Err UserOp) :=
  if c.pending_message.isSome then some (c, .error .alreadyWaiting)
  else
    match c.get_sorted_balances net with
    | .error e => some (c, .error e)
    | .ok bs =>
      if bs.2 < wei then some (c, .error .insufficientBalance)
      else
        match i128_try_from_u128 wei with
        | none => none
        | some w =>
          let current := c.get_value_transfer
          let next :=
            match c.us with
            | .A => wrap_i128 (current - w)
            | .B => wrap_i128 (current + w)
          let op0 : UserOp :=
            { sender := c.address, nonce := c.next_outgoing_nonce,
              init_code := c.init_code crypto, call_data := .dispute next,
              call_gas_limit := CALL_GAS_LIMIT_DISPUTE,
              verification_gas_limit := VERIFICATION_GAS_LIMIT,
              pre_verificaiton_gas := PRE_VERIFICATION_GAS,
              max_fee_per_gas := MAX_FEE_PER_GAS,
              max_priority_fee_per_gas := PRIORITY_FEE,
              paymaster_and_data := [], signature := [] }
          let op := { op0 with signature := c.sign crypto op0 }
          let pm := Message.Transfer { userop := op, value_transfer := next }
          some ({ c with pending_message := some pm }, .ok op)

/-- `Channel::request_full_withdraw`. -/
def request_full_withdraw (crypto : Crypto) (c : Channel) (net : Net) :
    Channel × Except Err UserOp :=
  if c.pending_message.isSome then (c, .error .alreadyWaiting)
  else
    match c.get_balances net with
    | .error e => (c, .error e)
    | .ok (withdraw_a, withdraw_b) =>
      let op0 : UserOp :=
        { sender := c.address, nonce := c.next_outgoing_nonce,
          init_code := c.init_code crypto,
          call_data := .coopWithdraw c.get_value_transfer withdraw_a withdraw_b,
          call_gas_limit := CALL_GAS_LIMIT_COOP,
          verification_gas_limit := VERIFICATION_GAS_LIMIT,
          pre_verificaiton_gas := PRE_VERIFICATION_GAS,
          max_fee_per_gas := MAX_FEE_PER_GAS,
          max_priority_fee_per_gas := PRIORITY_FEE,
          paymaster_and_data := [], signature := [] }
      let op := { op0 with signature := c.sign crypto op0 }
      let pm :=
        match c.us with
        | Party.A => Message.Withdrawal
            { userop := op, withdraw_us := withdraw_a, withdraw_them := withdraw_b }
        | Party.B => Message.Withdrawal
            { userop := op, withdraw_us := withdraw_b, withdraw_them := withdraw_a }
      ({ c with pending_message := some pm }, .ok op)

/-- `Channel::receive_message`: validation of a counterparty-proposed
operation. Borrows the channel immutably; returns the decoded message or the
error of the first failing check. The two `IllegalSignature` exits of the Rust
(unparseable signature bytes, unrecoverable signature) are both covered by
`crypto.recover` returning `none`. -/
def receive_message (crypto : Crypto) (c : Channel) (op : UserOp) (net : Net) :
    Except Err Message :=
  if c.address ≠ op.sender then .error .illegalSender
  else if c.next_incoming_nonce ≠ op.nonce then .error .illegalNonce
  else if op.init_code ≠ c.init_code crypto then .error .illegalInitcode
  else if op.paymaster_and_data ≠ ([] : List Nat)
      ∨ op.max_priority_fee_per_gas ≠ PRIORITY_FEE
      ∨ op.max_fee_per_gas ≠ MAX_FEE_PER_GAS
      ∨ op.pre_verificaiton_gas ≠ PRE_VERIFICATION_GAS
      ∨ op.verification_gas_limit ≠ VERIFICATION_GAS_LIMIT then
    .error .illegalConstant
  else
    match crypto.recover op.signature
        (crypto.userOpHash (hashView op) c.entry_point c.chain_id) with
    | none => .error .illegalSignature
    | some addr =>
      if addr ≠ c.counterparty then .error .illegalSignature
      else
        match op.call_data with
        | .coopWithdraw value_transfer withdraw_a withdraw_b =>
          if op.call_gas_limit ≠ CALL_GAS_LIMIT_COOP then .error .illegalConstant
          else if value_transfer ≠ c.get_value_transfer then
            .error .illegalValueTransfer
          else
            match c.get_balances net with
            | .error e => .error e
            | .ok (balance_a, balance_b) =>
              if withdraw_a > balance_a ∨ withdraw_b > balance_b then
                .error .insufficientBalance
              else
                let m :=
                  match c.us with
                  | Party.A => Message.Withdrawal
                      { userop := op, withdraw_us := withdraw_a,
                        withdraw_them := withdraw_b }
                  | Party.B => Message.Withdrawal
                      { userop := op, withdraw_us := withdraw_b,
                        withdraw_them := withdraw_a }
                .ok m
        | .dispute value_transfer =>
          if op.call_gas_limit ≠ CALL_GAS_LIMIT_DISPUTE then .error .illegalConstant
          else .ok (.Transfer { userop := op, value_transfer := value_transfer })
        | .other _ => .error .illegalCalldata

end Channel

/-- Outcome of `sign_message`: the channel after the call, the operation
submitted to the network client (`none` when nothing was submitted), and the
returned result. -/
structure SignOutcome where
  chan : Channel
  submitted : Option UserOp
  result : Except Err UserOp
  deriving Repr

namespace Channel

/-- `Channel::sign_message`: re-sign the wrapped operation, combine the two
signatures in fixed A-then-B order, submit to the network for a Withdrawal,
and append the message to the committed history. A failed submission returns
the transport error before the history is touched. -/
def sign_message (crypto : Crypto) (c : Channel) (m : Message) (net : Net) :
    SignOutcome :=
  let op := messageUserop m
  let signature := c.sign crypto op
  let new_sig :=
    match c.us with
    | Party.A => abiEncode2Bytes signature op.signature
    | Party.B => abiEncode2Bytes op.signature signature
  let op2 := { op with signature := new_sig }
  let m2 :=
    match m with
    | .Transfer t => Message.Transfer { t with userop := op2 }
    | .Withdrawal w => Message.Withdrawal { w with userop := op2 }
  match m with
  | .Withdrawal _ =>
    if net.send_ok then
      { chan := { c with messages := c.messages ++ [m2] },
        submitted := some op2, result := .ok op2 }
    else
      { chan := c, submitted := some op2, result := .error .middlewareError }
  | .Transfer _ =>
    { chan := { c with messages := c.messages ++ [m2] },
      submitted := none, result := .ok op2 }

/-- `Channel::cancel_pending_message`: clear the pending slot, report whether
one existed. -/
def cancel_pending_message (c : Channel) : Channel × Bool :=
  ({ c with pending_message := none }, c.pending_message.isSome)

end Channel

/-! ### Validation checks of `receive_message`, as individual predicates

Each boolean is one of the must-pass checks of `receive_message`, in the
order the library applies them; `firstFailing` extracts the error of the
earliest failing one. -/

/-- Check 1: the operation's sender is the channel address. -/
def senderOk (c : Channel) (op : UserOp) : Bool :=
  decide (c.address = op.sender)

/-- Check 2: the nonce is the next expected incoming nonce. -/
def nonceOk (c : Channel) (op : UserOp) : Bool :=
  decide (c.next_incoming_nonce = op.nonce)

/-- Check 3: the init code matches the channel's derived one. -/
def initcodeOk (crypto : Crypto) (c : Channel) (op : UserOp) : Bool :=
  decide (op.init_code = c.init_code crypto)

/-- Check 4: empty paymaster and the four fixed gas/fee constants. -/
def constantsOk (op : UserOp) : Bool :=
  decide (op.paymaster_and_data = ([] : List Nat)
    ∧ op.max_priority_fee_per_gas = PRIORITY_FEE
    ∧ op.max_fee_per_gas = MAX_FEE_PER_GAS
    ∧ op.pre_verificaiton_gas = PRE_VERIFICATION_GAS
    ∧ op.verification_gas_limit = VERIFICATION_GAS_LIMIT)

/-- Check 5: the signature recovers to the counterparty address. -/
def signatureOk (crypto : Crypto) (c : Channel) (op : UserOp) : Bool :=
  decide (crypto.recover op.signature
      (crypto.userOpHash (Channel.hashView op) c.entry_point c.chain_id)
    = some c.counterparty)

/-- Check 6: the call data decodes to one of the two known call shapes. -/
def calldataOk (op : UserOp) : Bool :=
  match op.call_data with
  | .other _ => false
  | _ => true

/-- Variant-specific checks (withdrawal: gas constant, embedded net-transfer
value, balance sufficiency against `bal`; transfer: gas constant). -/
def variantChecks (c : Channel) (op : UserOp) (bal : Nat × Nat) :
    List (Bool × Err) :=
  match op.call_data with
  | .coopWithdraw vt wa wb =>
    [(decide (op.call_gas_limit = CALL_GAS_LIMIT_COOP), Err.illegalConstant),
     (decide (vt = c.get_value_transfer), Err.illegalValueTransfer),
     (decide (¬(wa > bal.1 ∨ wb > bal.2)), Err.insufficientBalance)]
  | .dispute _ =>
    [(decide (op.call_gas_limit = CALL_GAS_LIMIT_DISPUTE), Err.illegalConstant)]
  | .other _ => []

/-- The full ordered check sequence of `receive_message`. -/
def checks (crypto : Crypto) (c : Channel) (op : UserOp) (bal : Nat × Nat) :
    List (Bool × Err) :=
  (senderOk c op, Err.illegalSender) ::
  (nonceOk c op, Err.illegalNonce) ::
  (initcodeOk crypto c op, Err.illegalInitcode) ::
  (constantsOk op, Err.illegalConstant) ::
  (signatureOk crypto c op, Err.illegalSignature) ::
  (calldataOk op, Err.illegalCalldata) :: variantChecks c op bal

/-- Error of the first failing check, `none` when all pass. -/
def firstFailing : List (Bool × Err) → Option Err
  | [] => none
  | (true, _) :: rest => firstFailing rest
  | (false, e) :: _ => some e

/-- The message `receive_message` returns when every check passes (the
`other` branch is unreachable in that case). -/
def acceptedMessage (c : Channel) (op : UserOp) : Message :=
  match op.call_data with
  | .coopWithdraw _ wa wb =>
    match c.us with
    | Party.A => .Withdrawal { userop := op, withdraw_us := wa, withdraw_them := wb }
    | Party.B => .Withdrawal { userop := op, withdraw_us := wb, withdraw_them := wa }
  | .dispute vt => .Transfer { userop := op, value_transfer := vt }
  | .other _ => .Transfer { userop := op, value_transfer := 0 }

/-! ### The commit flow

In the implemented protocol a message is committed to `messages` by
`sign_message` after having been validated by `receive_message` (the CLI's
receive-then-sign path; importing a countersigned response is an unfinished
`todo` in both the library and the CLI). `ReceiveSignReach` is the set of
channel states reachable from an empty history through that flow. -/

/-- Nonces of the committed history, in order. -/
def noncesOf (c : Channel) : List Nat := c.messages.map messageNonce

/-- Channel states reachable from an empty history by repeatedly validating
an incoming operation with `receive_message` and committing it with a
successful `sign_message`. -/
inductive ReceiveSignReach (crypto : Crypto) : Channel → Prop where
  | base (c : Channel) (h : c.messages = []) : ReceiveSignReach crypto c
  | step (c : Channel) (op : UserOp) (net net2 : Net) (m : Message)
      (hc : ReceiveSignReach crypto c)
      (hrecv : c.receive_message crypto op net = .ok m)
      (hok : (c.sign_message crypto m net2).result.isOk = true) :
      ReceiveSignReach crypto (c.sign_message crypto m net2).chan

/-! ### Concrete fixtures (used by counterexamples and witnesses) -/

/-- A concrete instance of the abstract cryptography, for evaluation:
a key `k` owns address `k + 1000`, a signature is the pair of key and hash,
and recovery reads them back. -/
def cryptoTest : Crypto where
  addrOfKey := fun k => k + 1000
  signHash := fun k h => [k, h]
  userOpHash := fun op ep cid => op.sender + op.nonce + ep + cid
  recover := fun s h =>
    match s with
    | [k, h2] => if h2 = h then some (k + 1000) else none
    | _ => none

/-- Undeployed channel account holding 10 wei, all network calls succeed. -/
def netC1 : Net :=
  { code_nonempty := some false, native_balance := some 10,
    chain_balance_a := some 0, chain_balance_b := some 0, send_ok := true }

/-- Every network call fails. -/
def netFail : Net :=
  { code_nonempty := none, native_balance := none,
    chain_balance_a := none, chain_balance_b := none, send_ok := false }

/-- A well-formed user operation carrying a net-transfer update to 4. -/
def opT : UserOp :=
  { sender := 77, nonce := 0, init_code := [], call_data := .dispute 4,
    call_gas_limit := CALL_GAS_LIMIT_DISPUTE,
    verification_gas_limit := VERIFICATION_GAS_LIMIT,
    pre_verificaiton_gas := PRE_VERIFICATION_GAS,
    max_fee_per_gas := MAX_FEE_PER_GAS,
    max_priority_fee_per_gas := PRIORITY_FEE,
    paymaster_and_data := [], signature := [1, 2] }

/-- A committed Transfer with `value_transfer = 4`. -/
def msgT : Message := .Transfer { userop := opT, value_transfer := 4 }

/-- A Withdrawal message (for the submission behaviour of `sign_message`). -/
def msgW : Message :=
  .Withdrawal { userop := opT, withdraw_us := 1, withdraw_them := 2 }

/-- Party-A channel whose history is the single committed Transfer `msgT`. -/
def chanC1 : Channel :=
  { chain_id := 5, entry_point := 9, factory := 8, address := 77, us := .A,
    key := 3, counterparty := 1004, salt := 42, messages := [msgT],
    pending_message := none }

/-- `chanC1` with an empty history. -/
def chanEmpty : Channel := { chanC1 with messages := [] }

/-- `chanC1` with a pending proposal of its own. -/
def chanC4 : Channel := { chanC1 with pending_message := some msgT }

/-- Party-B channel with empty history (counterparty is key 3's address,
own key is 4). -/
def chanSB : Channel :=
  { chain_id := 5, entry_point := 9, factory := 8, address := 77, us := .B,
    key := 4, counterparty := 1003, salt := 42, messages := [],
    pending_message := none }

/-- The unsigned operation `chanSB.request_transfer` builds for 1 wei. -/
def opW0 : UserOp :=
  { sender := 77, nonce := 0, init_code := chanSB.init_code cryptoTest,
    call_data := .dispute 1, call_gas_limit := CALL_GAS_LIMIT_DISPUTE,
    verification_gas_limit := VERIFICATION_GAS_LIMIT,
    pre_verificaiton_gas := PRE_VERIFICATION_GAS,
    max_fee_per_gas := MAX_FEE_PER_GAS,
    max_priority_fee_per_gas := PRIORITY_FEE,
    paymaster_and_data := [], signature := [] }

/-- `opW0` self-signed by `chanSB`. -/
def opW : UserOp := { opW0 with signature := chanSB.sign cryptoTest opW0 }

/-- The pending Transfer `chanSB.request_transfer` stores for 1 wei. -/
def msgSB : Message := .Transfer { userop := opW, value_transfer := 1 }

/-- `chanSB` after proposing the 1-wei transfer. -/
def chanSB' : Channel := { chanSB with pending_message := some msgSB }

/-- An operation passing the sender check of `chanC1` but carrying a stale
nonce and a wrong init code. -/
def opBad : UserOp := { opT with nonce := 5 }

/-- The co-signed operation `chanC1.sign_message` produces for `msgT`. -/
def opC5res : UserOp :=
  { opT with signature :=
      abiEncode2Bytes (chanC1.sign cryptoTest opT) opT.signature }

/-- Party-A instance produced by `openChannel cryptoTest 1 2 3 4 5 6 (some 7)`. -/
def chanOA : Channel :=
  { chain_id := 1, entry_point := 2, factory := 3, address := 7, us := .A,
    key := 4, counterparty := 1005, salt := 6, messages := [],
    pending_message := none }

/-- Party-B instance produced by `openChannel cryptoTest 1 2 3 4 5 6 (some 7)`. -/
def chanOB : Channel :=
  { chain_id := 1, entry_point := 2, factory := 3, address := 7, us := .B,
    key := 5, counterparty := 1004, salt := 6, messages := [],
    pending_message := none }

/-! ## Theorems -/

/-- Errors of `get_balances` are transport errors: a failed balance read
surfaces as `middlewareError` or `contractError`, never as a validation
error. -/
theorem get_balances_error_kinds (c : Channel) (net : Net) (e : Err)
    (h : c.get_balances net = .error e) :
    e = .middlewareError ∨ e = .contractError := by
  unfold Channel.get_balances Channel.is_deployed at h
  rcases hc : net.code_nonempty with _ | d <;> rw [hc] at h
  · exact Or.inl (Except.error.inj h).symm
  · rcases d
    · rcases hn : net.native_balance with _ | a <;> rw [hn] at h
      · exact Or.inl (Except.error.inj h).symm
      · simp at h
    · rcases ha : net.chain_balance_a with _ | a <;> rw [ha] at h
      · exact Or.inr (Except.error.inj h).symm
      · rcases hb : net.chain_balance_b with _ | b <;> rw [hb] at h
        · exact Or.inr (Except.error.inj h).symm
        · simp at h

/-- Errors of `get_sorted_balances` are those of `get_balances`. -/
theorem get_sorted_balances_error_kinds (c : Channel) (net : Net) (e : Err)
    (h : c.get_sorted_balances net = .error e) :
    e = .middlewareError ∨ e = .contractError := by
  unfold Channel.get_sorted_balances at h
  rcases hb : c.get_balances net with e2 | bs <;> rw [hb] at h
  · exact (Except.error.inj h) ▸ get_balances_error_kinds c net e2 hb
  · simp at h

set_option maxRecDepth 20000 in
/-- Claim C1: the spec's balance adjustment subtracts the outstanding
net-transfer value `v` from the raw A-side balance and adds `v` to the raw
B-side balance, so that the pair is `(a - v, b + v)` and the total is
conserved. The code instead computes `balance_b += (balance_b - v) as u128`.
At the concrete failing input below (undeployed account holding 10 wei, one
committed Transfer with `value_transfer = 4`, raw pair `(10, 0)`), the code
returns B's balance as `2^128 - 4` where the claim demands `0 + 4 = 4`, and
the computed total `6 + (2^128 - 4)` differs from the unadjusted total 10. -/
theorem c1_get_balances_misadjusts_B :
    chanC1.get_balances netC1 = .ok (6, 2 ^ 128 - 4) ∧
    (2 ^ 128 - 4 : Nat) ≠ 0 + 4 ∧
    6 + (2 ^ 128 - 4) ≠ 10 := by
  refine ⟨rfl, by decide, by decide⟩

/-- Claim C4, counterexample: `sign_message` never touches `pending_message`.
`chanC4` holds a pending proposal; co-signing and committing the Transfer
`msgT` succeeds, yet the pending slot is still occupied afterwards, so the
channel is not back to Idle. -/
theorem c4_sign_message_keeps_pending :
    (chanC4.sign_message cryptoTest msgT netC1).result.isOk = true ∧
    chanC4.pending_message.isSome = true ∧
    (chanC4.sign_message cryptoTest msgT netC1).chan.pending_message.isSome
      = true := by
  refine ⟨rfl, rfl, rfl⟩

/-- Claim C4, amended: a successful `sign_message` leaves `pending_message`
exactly as it was before the call (so the channel returns to Idle after
committing only if it already was Idle); the pending slot is cleared only by
`cancel_pending_message`. -/
theorem c4_amended_pending_unchanged (crypto : Crypto) (c : Channel)
    (m : Message) (net : Net) :
    (c.sign_message crypto m net).chan.pending_message = c.pending_message ∧
    (c.cancel_pending_message).1.pending_message = none := by
  constructor
  · cases m with
    | Transfer t => rfl
    | Withdrawal w =>
      simp only [Channel.sign_message]
      split <;> rfl
  · rfl

/-- Claim C5: the combined signature placed on the operation by
`sign_message` is the ABI encoding of the two signatures with party A's
first and party B's second, whichever role performs the combination; the
counterparty's pre-existing signature (held in the incoming operation's
signature field) fills the other slot. -/
theorem c5_cosign_fixed_order (crypto : Crypto) (c : Channel) (m : Message)
    (net : Net) (op2 : UserOp)
    (h : (c.sign_message crypto m net).result = .ok op2) :
    op2.signature =
      abiEncode2Bytes
        (if c.us = Party.A then c.sign crypto (messageUserop m)
         else (messageUserop m).signature)
        (if c.us = Party.A then (messageUserop m).signature
         else c.sign crypto (messageUserop m)) := by
  cases m with
  | Transfer t =>
    cases hus : c.us <;>
      simp only [Channel.sign_message, messageUserop, hus, Except.ok.injEq] at h ⊢ <;>
      rw [← h] <;> simp
  | Withdrawal w =>
    cases hs : net.send_ok <;>
      cases hus : c.us <;>
        simp only [Channel.sign_message, messageUserop, hus, hs, Except.ok.injEq,
          reduceCtorEq, reduceIte] at h ⊢ <;>
        rw [← h] <;> simp

/-- Claim C5, witness at a concrete input: the party-A instance `chanC1`
co-signs `msgT`; its own fresh signature occupies the first slot, the
counterparty's pre-existing one the second. -/
theorem c5_witness :
    opC5res.signature =
      abiEncode2Bytes (chanC1.sign cryptoTest (messageUserop msgT))
        (messageUserop msgT).signature :=
  c5_cosign_fixed_order cryptoTest chanC1 msgT netC1 opC5res rfl

/-- Claim C6: `sign_message` submits the co-signed operation to the network
client exactly when the message is a Withdrawal; a Transfer is committed to
the history without any broadcast (and its commit cannot fail). -/
theorem c6_submit_iff_withdrawal (crypto : Crypto) (c : Channel) (m : Message)
    (net : Net) :
    ((c.sign_message crypto m net).submitted.isSome = true ↔
      ∃ w, m = Message.Withdrawal w) ∧
    (∀ t, m = Message.Transfer t →
      (c.sign_message crypto m net).submitted = none ∧
      (c.sign_message crypto m net).result.isOk = true ∧
      ∃ m2, (c.sign_message crypto m net).chan.messages = c.messages ++ [m2]) := by
  constructor
  · cases m with
    | Transfer t => simp [Channel.sign_message]
    | Withdrawal w => cases hs : net.send_ok <;> simp [Channel.sign_message, hs]
  · intro t ht
    subst ht
    refine ⟨rfl, rfl, ?_⟩
    exact ⟨_, rfl⟩

/-- Claim C6, witness: `chanC1` submits when co-signing the Withdrawal
`msgW` and does not submit when co-signing the Transfer `msgT`, which is
nevertheless appended to the history. -/
theorem c6_witness :
    (chanC1.sign_message cryptoTest msgW netC1).submitted.isSome = true ∧
    (chanC1.sign_message cryptoTest msgT netC1).submitted = none ∧
    (chanC1.sign_message cryptoTest msgT netC1).result.isOk = true ∧
    ∃ m2, (chanC1.sign_message cryptoTest msgT netC1).chan.messages
        = chanC1.messages ++ [m2] :=
  ⟨(c6_submit_iff_withdrawal cryptoTest chanC1 msgW netC1).1.mpr ⟨_, rfl⟩,
   (c6_submit_iff_withdrawal cryptoTest chanC1 msgT netC1).2 _ rfl⟩

/-- Claim C8: a successful `open` yields two instances sharing address,
factory, entry point, chain id and salt, with swapped roles, each holding
the other's key-derived address as counterparty, and computing byte-identical
init code (both order the parties A-then-B). -/
theorem c8_open_pair_symmetric (crypto : Crypto) (cid ep f ka kb s addr : Nat)
    (a b : Channel)
    (h : Channel.openChannel crypto cid ep f ka kb s (some addr) = .ok (a, b)) :
    a.address = b.address ∧ a.factory = b.factory ∧
    a.entry_point = b.entry_point ∧ a.chain_id = b.chain_id ∧
    a.salt = b.salt ∧ a.us = Party.A ∧ b.us = Party.B ∧
    a.counterparty = b.our_address crypto ∧
    b.counterparty = a.our_address crypto ∧
    a.init_code crypto = b.init_code crypto := by
  simp only [Channel.openChannel, Except.ok.injEq, Prod.mk.injEq] at h
  obtain ⟨ha, hb⟩ := h
  subst ha
  subst hb
  exact ⟨rfl, rfl, rfl, rfl, rfl, rfl, rfl, rfl, rfl, rfl⟩

/-- Claim C8, witness: the concrete pair `openChannel cryptoTest 1 2 3 4 5 6`
returns when the factory answers address 7. -/
theorem c8_witness :
    chanOA.address = chanOB.address ∧ chanOA.factory = chanOB.factory ∧
    chanOA.entry_point = chanOB.entry_point ∧
    chanOA.chain_id = chanOB.chain_id ∧ chanOA.salt = chanOB.salt ∧
    chanOA.us = Party.A ∧ chanOB.us = Party.B ∧
    chanOA.counterparty = chanOB.our_address cryptoTest ∧
    chanOB.counterparty = chanOA.our_address cryptoTest ∧
    chanOA.init_code cryptoTest = chanOB.init_code cryptoTest :=
  c8_open_pair_symmetric cryptoTest 1 2 3 4 5 6 7 chanOA chanOB rfl

/-- Claim C9: an error return leaves the channel state untouched. The three
mutating entry points return the unchanged channel alongside every error
(transport failures from the network oracle included); `receive_message`
borrows the channel immutably and is state-preserving by its type. State is
assigned only after all checks and network calls of the operation succeeded. -/
theorem c9_error_preserves_state (crypto : Crypto) (c : Channel) (net : Net)
    (wei : Nat) (m : Message) :
    (∀ c2 e, c.request_transfer crypto wei net = some (c2, .error e) → c2 = c) ∧
    (∀ c2 e, c.request_full_withdraw crypto net = (c2, .error e) → c2 = c) ∧
    (∀ e, (c.sign_message crypto m net).result = .error e →
      (c.sign_message crypto m net).chan = c) := by
  refine ⟨?_, ?_, ?_⟩
  · intro c2 e h
    unfold Channel.request_transfer at h
    repeat' split at h
    all_goals simp_all
  · intro c2 e h
    unfold Channel.request_full_withdraw at h
    repeat' split at h
    all_goals simp_all
  · intro e h
    cases m with
    | Transfer t => simp [Channel.sign_message] at h
    | Withdrawal w =>
      cases hs : net.send_ok <;> simp [Channel.sign_message, hs] at h ⊢

/-- Claim C9, witness: with every network call failing, the three mutating
operations leave their channels as they were. -/
theorem c9_witness :
    chanC1 = chanC1 ∧ chanSB = chanSB ∧
    (chanC1.sign_message cryptoTest msgW netFail).chan = chanC1 :=
  ⟨(c9_error_preserves_state cryptoTest chanC1 netFail 1 msgW).1
      chanC1 .middlewareError rfl,
   (c9_error_preserves_state cryptoTest chanSB netFail 1 msgW).2.1
      chanSB .middlewareError rfl,
   (c9_error_preserves_state cryptoTest chanC1 netFail 1 msgW).2.2
      .middlewareError rfl⟩

/-- Claim C10: `request_transfer` is not total in its `NonZeroU128` amount.
When no proposal is pending and the recipient's computed balance covers the
amount, any amount above `i128::MAX = 2^127 - 1` drives the
`i128::try_from(...).unwrap()` into a panic (modelled as `none`) instead of
a typed error. -/
theorem c10_request_transfer_panics_above_i128_max (crypto : Crypto)
    (c : Channel) (net : Net) (wei : Nat) (bs : Nat × Nat)
    (hpend : c.pending_message = none)
    (hbal : c.get_sorted_balances net = .ok bs)
    (hge : ¬ bs.2 < wei)
    (hbig : 2 ^ 127 - 1 < wei) :
    c.request_transfer crypto wei net = none := by
  unfold Channel.request_transfer i128_try_from_u128
  rw [hpend, hbal]
  simp only [Option.isSome_none, if_neg hge, if_neg (not_le.mpr hbig)]
  rfl

set_option maxRecDepth 20000 in
/-- Claim C10, witness: requesting `2^127` wei from `chanC1` (whose
counterparty balance, after the buggy adjustment of `get_balances`, is
`2^128 - 4`) panics. -/
theorem c10_witness :
    chanC1.request_transfer cryptoTest (2 ^ 127) netC1 = none :=
  c10_request_transfer_panics_above_i128_max cryptoTest chanC1 netC1 (2 ^ 127)
    (6, 2 ^ 128 - 4) rfl (by rfl) (by decide) (by decide)

/-- Claim C2: `request_transfer` fails with `alreadyWaiting` exactly when a
pending message exists; otherwise (and with the balance fetch succeeding) it
fails with `insufficientBalance` exactly when the requested amount exceeds
the recipient's computed balance — the second component of
`get_sorted_balances`, i.e. the counterparty's balance after the
outstanding-transfer accounting; and it returns successfully only when both
checks passed, having stored a self-signed pending Transfer wrapping the
returned operation. -/
theorem c2_request_transfer_checks (crypto : Crypto) (c : Channel) (wei : Nat)
    (net : Net) :
    (c.request_transfer crypto wei net = some (c, .error .alreadyWaiting) ↔
      c.pending_message.isSome = true) ∧
    (c.request_transfer crypto wei net = some (c, .error .insufficientBalance) ↔
      (c.pending_message = none ∧
        ∃ bs, c.get_sorted_balances net = .ok bs ∧ bs.2 < wei)) ∧
    (∀ c2 op, c.request_transfer crypto wei net = some (c2, .ok op) →
      c.pending_message = none ∧
      (∃ bs, c.get_sorted_balances net = .ok bs ∧ wei ≤ bs.2) ∧
      (∃ t, c2 = { c with pending_message := some (Message.Transfer t) } ∧
        t.userop = op ∧ op.signature = c.sign crypto op)) := by
  rcases hpm : c.pending_message with _ | pm
  case some =>
    refine ⟨by simp [Channel.request_transfer, hpm], ?_, ?_⟩
    · simp [Channel.request_transfer, hpm]
    · intro c2 op h
      simp [Channel.request_transfer, hpm] at h
  case none =>
    rcases hs : c.get_sorted_balances net with e | bs
    · have hek := get_sorted_balances_error_kinds c net e hs
      have hne1 : e ≠ Err.alreadyWaiting := by
        rcases hek with h | h <;> subst h <;> decide
      have hne2 : e ≠ Err.insufficientBalance := by
        rcases hek with h | h <;> subst h <;> decide
      refine ⟨?_, ?_, ?_⟩
      · simp [Channel.request_transfer, hpm, hs, hne1]
      · simp [Channel.request_transfer, hpm, hs, hne2]
      · intro c2 op h
        simp [Channel.request_transfer, hpm, hs] at h
    · by_cases hlt : bs.2 < wei
      · refine ⟨?_, ?_, ?_⟩
        · simp [Channel.request_transfer, hpm, hs, hlt]
        · simp [Channel.request_transfer, hpm, hs, hlt]
        · intro c2 op h
          simp [Channel.request_transfer, hpm, hs, hlt] at h
      · rcases hw : i128_try_from_u128 wei with _ | w
        · refine ⟨?_, ?_, ?_⟩
          · simp [Channel.request_transfer, hpm, hs, hlt, hw]
          · simp [Channel.request_transfer, hpm, hs, hlt, hw]
          · intro c2 op h
            simp [Channel.request_transfer, hpm, hs, hlt, hw] at h
        · refine ⟨?_, ?_, ?_⟩
          · simp [Channel.request_transfer, hpm, hs, hlt, hw]
          · simp [Channel.request_transfer, hpm, hs, hlt, hw]
          · intro c2 op h
            simp only [Channel.request_transfer, hpm, hs, hlt, hw,
              Option.isSome_none, Bool.false_eq_true, if_false, if_neg hlt,
              Option.some.injEq, Prod.mk.injEq, Except.ok.injEq] at h
            obtain ⟨hc2, hop⟩ := h
            subst hc2
            subst hop
            exact ⟨rfl, ⟨bs, rfl, not_lt.mp hlt⟩, ⟨_, rfl, rfl, rfl⟩⟩

set_option maxRecDepth 20000 in
/-- Claim C2, witness: `chanC4` (pending proposal) is rejected with
`alreadyWaiting`; `chanC1` rejects a request for `2^128 - 1` wei beyond the
recipient's balance with `insufficientBalance`; and `chanSB` successfully
proposes 1 wei, storing the self-signed Transfer `msgSB`. -/
theorem c2_witness :
    (chanC4.request_transfer cryptoTest 1 netC1
        = some (chanC4, .error .alreadyWaiting)) ∧
    (chanC1.request_transfer cryptoTest (2 ^ 128 - 1) netC1
        = some (chanC1, .error .insufficientBalance)) ∧
    (chanSB.pending_message = none ∧
      (∃ bs, chanSB.get_sorted_balances netC1 = .ok bs ∧ 1 ≤ bs.2) ∧
      (∃ t, chanSB' = { chanSB with pending_message := some (Message.Transfer t) } ∧
        t.userop = opW ∧ opW.signature = chanSB.sign cryptoTest opW)) :=
  ⟨(c2_request_transfer_checks cryptoTest chanC4 1 netC1).1.mpr rfl,
   (c2_request_transfer_checks cryptoTest chanC1 (2 ^ 128 - 1) netC1).2.1.mpr
     ⟨rfl, ⟨(6, 2 ^ 128 - 4), by rfl, by decide⟩⟩,
   (c2_request_transfer_checks cryptoTest chanSB 1 netC1).2.2 chanSB' opW (by rfl)⟩

/-- A successful `sign_message` appends exactly one message to the history,
and the committed message carries the nonce of the message that was signed
(re-signing replaces only the signature field). -/
theorem sign_message_ok_appends (crypto : Crypto) (c : Channel) (m : Message)
    (net : Net) (h : (c.sign_message crypto m net).result.isOk = true) :
    ∃ m2, (c.sign_message crypto m net).chan.messages = c.messages ++ [m2] ∧
      messageNonce m2 = messageNonce m := by
  cases m with
  | Transfer t => exact ⟨_, rfl, rfl⟩
  | Withdrawal w =>
    cases hs : net.send_ok
    · simp [Channel.sign_message, hs, Except.isOk, Except.toBool] at h
    · simp only [Channel.sign_message, hs, reduceIte]
      exact ⟨_, rfl, rfl⟩

/-- A message accepted by `receive_message` carries the nonce of the
validated operation, which equals the next expected incoming nonce. -/
theorem receive_ok_nonce (crypto : Crypto) (c : Channel) (op : UserOp)
    (net : Net) (m : Message) (h : c.receive_message crypto op net = .ok m) :
    messageNonce m = c.next_incoming_nonce := by
  unfold Channel.receive_message at h
  repeat' split at h
  all_goals try cases h
  all_goals simp_all [messageNonce]

/-- A nonce history forming `range n` determines the next nonce: it is the
history's length. -/
theorem next_nonce_of_range (c : Channel)
    (h : noncesOf c = List.range c.messages.length) :
    c.next_incoming_nonce = c.messages.length := by
  unfold Channel.next_incoming_nonce Channel.next_outgoing_nonce
    Channel.last_nonce
  rcases List.eq_nil_or_concat c.messages with hm | ⟨l, m, hm⟩
  · simp [hm]
  · rw [List.concat_eq_append] at hm
    have hlast : messageNonce m = l.length := by
      have h2 := congrArg List.getLast? h
      rw [noncesOf, hm] at h2
      have hlen2 : (l ++ [m]).length = l.length + 1 := by simp
      rw [hlen2, List.range_succ, List.map_append] at h2
      simpa [List.getLast?_concat] using h2
    rw [hm]
    simp [List.getLast?_concat, hlast]

/-- Any state reachable through the receive-then-sign commit flow has
committed nonces exactly `0, 1, 2, ...`. -/
theorem reach_nonces_range (crypto : Crypto) (c : Channel)
    (h : ReceiveSignReach crypto c) :
    noncesOf c = List.range c.messages.length := by
  induction h with
  | base c hc => simp [noncesOf, hc]
  | step c op net net2 m hc hrecv hok ih =>
    obtain ⟨m2, hmsg, hn⟩ := sign_message_ok_appends crypto c m net2 hok
    have hnonce : messageNonce m = c.next_incoming_nonce :=
      receive_ok_nonce crypto c op net m hrecv
    have hnext : c.next_incoming_nonce = c.messages.length :=
      next_nonce_of_range c ih
    rw [noncesOf, hmsg, List.map_append]
    have hlen2 : (c.messages ++ [m2]).length = c.messages.length + 1 := by simp
    rw [hlen2, List.range_succ]
    have h1 : List.map messageNonce c.messages
        = List.range c.messages.length := ih
    have h2 : List.map messageNonce [m2] = [c.messages.length] := by
      simp [hn, hnonce, hnext]
    rw [h1, h2]

/-- Claim C7: `next_outgoing_nonce` is 0 on an empty history and the last
committed nonce plus 1 otherwise; `next_incoming_nonce` always coincides
with it (one shared counter); and every channel state produced by the
receive-then-sign commit flow has committed nonces exactly
`0, 1, ..., n-1`. -/
theorem c7_nonce_discipline (crypto : Crypto) (c : Channel) :
    (c.messages = [] → c.next_outgoing_nonce = 0) ∧
    (∀ pre m, c.messages = pre ++ [m] →
      c.next_outgoing_nonce = messageNonce m + 1) ∧
    c.next_incoming_nonce = c.next_outgoing_nonce ∧
    (ReceiveSignReach crypto c →
      noncesOf c = List.range c.messages.length) := by
  refine ⟨?_, ?_, rfl, reach_nonces_range crypto c⟩
  · intro h
    simp [Channel.next_outgoing_nonce, h]
  · intro pre m h
    simp [Channel.next_outgoing_nonce, Channel.last_nonce, h,
      List.getLast?_concat]

/-- Claim C7, witness: the empty-history channel starts at nonce 0 and is
trivially in the commit-flow relation; `chanC1` (one committed message of
nonce 0) reports 1 as the next nonce. -/
theorem c7_witness :
    chanEmpty.next_outgoing_nonce = 0 ∧
    chanC1.next_outgoing_nonce = messageNonce msgT + 1 ∧
    chanC1.next_incoming_nonce = chanC1.next_outgoing_nonce ∧
    noncesOf chanEmpty = List.range chanEmpty.messages.length :=
  ⟨(c7_nonce_discipline cryptoTest chanEmpty).1 rfl,
   (c7_nonce_discipline cryptoTest chanC1).2.1 [] msgT rfl,
   (c7_nonce_discipline cryptoTest chanC1).2.2.1,
   (c7_nonce_discipline cryptoTest chanEmpty).2.2.2
     (ReceiveSignReach.base chanEmpty rfl)⟩

/-- Claim C3: `receive_message` applies its checks in the fixed order
sender, nonce, init code, paymaster-and-gas constants, signature, calldata
shape, then the variant-specific checks, and its outcome is the error of the
first failing check in that order (each check owning its distinct error), or
the accepted message when all pass. The hypothesis pins the balance fetch
used by the withdrawal-variant sufficiency check. -/
theorem c3_receive_first_failing (crypto : Crypto) (c : Channel) (op : UserOp)
    (net : Net) (bal : Nat × Nat) (hbal : c.get_balances net = .ok bal) :
    c.receive_message crypto op net =
      (match firstFailing (checks crypto c op bal) with
       | some e => .error e
       | none => .ok (acceptedMessage c op)) := by
  by_cases h1 : c.address = op.sender
  case neg =>
    simp [Channel.receive_message, checks, firstFailing, senderOk, h1]
  case pos =>
  by_cases h2 : c.next_incoming_nonce = op.nonce
  case neg =>
    simp [Channel.receive_message, checks, firstFailing, senderOk, nonceOk,
      h1, h2]
  case pos =>
  by_cases h3 : op.init_code = c.init_code crypto
  case neg =>
    simp [Channel.receive_message, checks, firstFailing, senderOk, nonceOk,
      initcodeOk, h1, h2, h3]
  case pos =>
  by_cases h4 : (op.paymaster_and_data = ([] : List Nat)
      ∧ op.max_priority_fee_per_gas = PRIORITY_FEE
      ∧ op.max_fee_per_gas = MAX_FEE_PER_GAS
      ∧ op.pre_verificaiton_gas = PRE_VERIFICATION_GAS
      ∧ op.verification_gas_limit = VERIFICATION_GAS_LIMIT)
  case neg =>
    have hd : op.paymaster_and_data ≠ ([] : List Nat)
        ∨ op.max_priority_fee_per_gas ≠ PRIORITY_FEE
        ∨ op.max_fee_per_gas ≠ MAX_FEE_PER_GAS
        ∨ op.pre_verificaiton_gas ≠ PRE_VERIFICATION_GAS
        ∨ op.verification_gas_limit ≠ VERIFICATION_GAS_LIMIT := by
      tauto
    simp [Channel.receive_message, checks, firstFailing, senderOk, nonceOk,
      initcodeOk, constantsOk, h1, h2, h3, h4, hd]
  case pos =>
  obtain ⟨hc1, hc2, hc3, hc4, hc5⟩ := h4
  rcases hr : crypto.recover op.signature
      (crypto.userOpHash (Channel.hashView op) c.entry_point c.chain_id)
    with _ | addr
  · simp [Channel.receive_message, checks, firstFailing, senderOk, nonceOk,
      initcodeOk, constantsOk, signatureOk, h1, h2, h3, hc1, hc2, hc3, hc4,
      hc5, hr]
  · by_cases ha : addr = c.counterparty
    case neg =>
      simp [Channel.receive_message, checks, firstFailing, senderOk, nonceOk,
        initcodeOk, constantsOk, signatureOk, h1, h2, h3, hc1, hc2, hc3, hc4,
        hc5, hr, ha]
    case pos =>
    subst ha
    rcases hcd : op.call_data with vt | ⟨vt, wa, wb⟩ | raw
    · -- transfer-value-update call
      by_cases hg : op.call_gas_limit = CALL_GAS_LIMIT_DISPUTE <;>
        simp [Channel.receive_message, checks, firstFailing, senderOk,
          nonceOk, initcodeOk, constantsOk, signatureOk, calldataOk,
          variantChecks, acceptedMessage, h1, h2, h3, hc1, hc2, hc3, hc4,
          hc5, hr, hcd, hg]
    · -- cooperative-withdrawal call
      by_cases hg : op.call_gas_limit = CALL_GAS_LIMIT_COOP
      case neg =>
        simp [Channel.receive_message, checks, firstFailing, senderOk,
          nonceOk, initcodeOk, constantsOk, signatureOk, calldataOk,
          variantChecks, h1, h2, h3, hc1, hc2, hc3, hc4, hc5, hr, hcd, hg]
      case pos =>
      by_cases hvt : vt = c.get_value_transfer
      case neg =>
        simp [Channel.receive_message, checks, firstFailing, senderOk,
          nonceOk, initcodeOk, constantsOk, signatureOk, calldataOk,
          variantChecks, h1, h2, h3, hc1, hc2, hc3, hc4, hc5, hr, hcd, hg,
          hvt]
      case pos =>
      by_cases hw : wa > bal.1 ∨ wb > bal.2 <;>
        simp [Channel.receive_message, checks, firstFailing, senderOk,
          nonceOk, initcodeOk, constantsOk, signatureOk, calldataOk,
          variantChecks, acceptedMessage, h1, h2, h3, hc1, hc2, hc3, hc4,
          hc5, hr, hcd, hg, hvt, hw, hbal]
    · -- unrecognised call shape
      simp [Channel.receive_message, checks, firstFailing, senderOk, nonceOk,
        initcodeOk, constantsOk, signatureOk, calldataOk, variantChecks,
        h1, h2, h3, hc1, hc2, hc3, hc4, hc5, hr, hcd]

set_option maxRecDepth 20000 in
/-- Claim C3, witness: an operation with correct sender but stale nonce and
tampered init code is rejected with the error of the earliest failing check,
`illegalNonce`. -/
theorem c3_witness :
    chanC1.receive_message cryptoTest opBad netC1 = .error .illegalNonce :=
  (c3_receive_first_failing cryptoTest chanC1 opBad netC1 (6, 2 ^ 128 - 4)
    (by rfl)).trans (by rfl)

end Ch4
